import Mathlib

/-!
Verification development for the paper-calc-viewer repository
(src/src/PaperCalcViewer.tsx). The component is shallowly embedded:
byte strings become lists of naturals, JS numbers become rationals,
React state becomes an explicit record, and the event handlers become
pure functions or state transformers mirroring the source line by line.
-/

namespace PaperCalcViewer

/-- Byte strings (zip entry contents, file payloads) are modelled as
lists of naturals. -/
abbrev Bytes := List Nat

/-- The `ViewMode` union type from the source
(`type ViewMode = "split" | "paper" | "app"`). -/
inductive ViewMode
  | split
  | paper
  | app
deriving DecidableEq

/-- The orientation union type from the source
(`"horizontal" | "vertical"`). -/
inductive Orientation
  | horizontal
  | vertical
deriving DecidableEq

/-- The `Theme` union type from the source (`"light" | "dark"`). -/
inductive Theme
  | light
  | dark
deriving DecidableEq

/-- The manifest record as produced by `JSON.parse` in `onOpenBundle`
(source lines 121-128). Every field is optional: the code performs no
validation, so `paper`/`app` may be absent (JS `undefined`), which we
model as `none`. -/
structure ManifestJson where
  title : Option String := none
  paper : Option String := none
  app : Option String := none
  layout : Option ViewMode := none
  split : Option ℚ := none
  orientation : Option Orientation := none
  version : Option ℤ := none
deriving DecidableEq

/-!
Serialization of the manifest entry. The source stores the manifest as
JSON text (`JSON.stringify` at save, `JSON.parse` at open). We model
that pair by an executable injective byte encoding together with its
exact inverse; the only properties of JSON (de)serialization the
program relies on are that printing is injective and that parsing
inverts printing, and both are proved below for this model.
-/

/-- Encode a string: length, then the code points of its characters. -/
def encString (s : String) : Bytes := s.length :: s.toList.map Char.toNat

/-- Read back `n` characters from a byte list. -/
def takeChars : Nat → Bytes → Option (List Char × Bytes)
  | 0, rest => some ([], rest)
  | _ + 1, [] => none
  | n + 1, b :: rest =>
    match takeChars n rest with
    | none => none
    | some (cs, r) => some (Char.ofNat b :: cs, r)

/-- Decode a string encoded by `encString`. -/
def decString : Bytes → Option (String × Bytes)
  | [] => none
  | n :: rest =>
    match takeChars n rest with
    | none => none
    | some (cs, r) => some (String.mk cs, r)

/-- Encode an integer: sign tag then absolute value. -/
def encInt (z : ℤ) : Bytes := if z < 0 then [1, z.natAbs] else [0, z.natAbs]

/-- Decode an integer encoded by `encInt`. -/
def decInt : Bytes → Option (ℤ × Bytes)
  | 0 :: n :: rest => some ((n : ℤ), rest)
  | 1 :: n :: rest => some (-(n : ℤ), rest)
  | _ => none

/-- Encode a rational: numerator then denominator. -/
def encRat (q : ℚ) : Bytes := encInt q.num ++ [q.den]

/-- Decode a rational encoded by `encRat`. -/
def decRat (b : Bytes) : Option (ℚ × Bytes) :=
  match decInt b with
  | none => none
  | some (n, rest) =>
    match rest with
    | [] => none
    | d :: r => some ((n : ℚ) / (d : ℚ), r)

/-- Encode a view mode as a tag byte. -/
def encViewMode : ViewMode → Bytes
  | .split => [0]
  | .paper => [1]
  | .app => [2]

/-- Decode a view mode encoded by `encViewMode`. -/
def decViewMode : Bytes → Option (ViewMode × Bytes)
  | 0 :: r => some (.split, r)
  | 1 :: r => some (.paper, r)
  | 2 :: r => some (.app, r)
  | _ => none

/-- Encode an orientation as a tag byte. -/
def encOrientation : Orientation → Bytes
  | .horizontal => [0]
  | .vertical => [1]

/-- Decode an orientation encoded by `encOrientation`. -/
def decOrientation : Bytes → Option (Orientation × Bytes)
  | 0 :: r => some (.horizontal, r)
  | 1 :: r => some (.vertical, r)
  | _ => none

/-- Encode an optional value: presence tag then payload. -/
def encOption {α : Type} (f : α → Bytes) : Option α → Bytes
  | none => [0]
  | some a => 1 :: f a

/-- Decode an optional value encoded by `encOption`. -/
def decOption {α : Type} (f : Bytes → Option (α × Bytes)) : Bytes → Option (Option α × Bytes)
  | 0 :: rest => some (none, rest)
  | 1 :: rest =>
    match f rest with
    | none => none
    | some (a, r) => some (some a, r)
  | _ => none

/-- Serialize a manifest record; models `JSON.stringify(manifest)` at
source line 198. -/
def printManifest (m : ManifestJson) : Bytes :=
  encOption encString m.title ++
    (encOption encString m.paper ++
      (encOption encString m.app ++
        (encOption encViewMode m.layout ++
          (encOption encRat m.split ++
            (encOption encOrientation m.orientation ++ encOption encInt m.version)))))

/-- Parse a manifest record; models `JSON.parse(strFromU8(manifestRaw))`
at source line 121 (`none` models a parse exception). -/
def parseManifest (b : Bytes) : Option ManifestJson :=
  (decOption decString b).bind fun p1 =>
  (decOption decString p1.2).bind fun p2 =>
  (decOption decString p2.2).bind fun p3 =>
  (decOption decViewMode p3.2).bind fun p4 =>
  (decOption decRat p4.2).bind fun p5 =>
  (decOption decOrientation p5.2).bind fun p6 =>
  (decOption decInt p6.2).bind fun p7 =>
  if p7.2 = [] then
    some ⟨p1.1, p2.1, p3.1, p4.1, p5.1, p6.1, p7.1⟩
  else none

@[simp] theorem takeChars_append (cs : List Char) (rest : Bytes) :
    takeChars cs.length (cs.map Char.toNat ++ rest) = some (cs, rest) := by
  induction cs with
  | nil => rfl
  | cons c cs ih => simp [takeChars, ih, Char.ofNat_toNat]

@[simp] theorem decString_encString (s : String) (rest : Bytes) :
    decString (encString s ++ rest) = some (s, rest) := by
  cases s with
  | mk cs =>
    simp [encString, decString, String.toList, String.length]

@[simp] theorem decInt_encInt (z : ℤ) (rest : Bytes) :
    decInt (encInt z ++ rest) = some (z, rest) := by
  by_cases h : z < 0
  · have hz : -((z.natAbs : ℤ)) = z := by omega
    simp only [encInt, if_pos h, List.cons_append, List.nil_append, decInt, hz]
  · have hz : ((z.natAbs : ℤ)) = z := by omega
    simp only [encInt, if_neg h, List.cons_append, List.nil_append, decInt, hz]

@[simp] theorem decRat_encRat (q : ℚ) (rest : Bytes) :
    decRat (encRat q ++ rest) = some (q, rest) := by
  simp [encRat, decRat, Rat.num_div_den]

@[simp] theorem decViewMode_encViewMode (v : ViewMode) (rest : Bytes) :
    decViewMode (encViewMode v ++ rest) = some (v, rest) := by
  cases v <;> rfl

@[simp] theorem decOrientation_encOrientation (o : Orientation) (rest : Bytes) :
    decOrientation (encOrientation o ++ rest) = some (o, rest) := by
  cases o <;> rfl

@[simp] theorem decOption_encOption {α : Type} (f : α → Bytes)
    (g : Bytes → Option (α × Bytes))
    (h : ∀ a rest, g (f a ++ rest) = some (a, rest)) (o : Option α) (rest : Bytes) :
    decOption g (encOption f o ++ rest) = some (o, rest) := by
  cases o with
  | none => rfl
  | some a => simp [encOption, decOption, h]

/-- Parsing inverts printing: the model's counterpart of
`JSON.parse(JSON.stringify(m)) = m`. -/
theorem parseManifest_printManifest (m : ManifestJson) :
    parseManifest (printManifest m) = some m := by
  have hs : ∀ (o : Option String) (rest : Bytes),
      decOption decString (encOption encString o ++ rest) = some (o, rest) :=
    decOption_encOption _ _ decString_encString
  have hi : ∀ (o : Option ℤ),
      decOption decInt (encOption encInt o) = some (o, []) := fun o => by
    have := decOption_encOption _ _ decInt_encInt o []
    simpa using this
  have hr : ∀ (o : Option ℚ) (rest : Bytes),
      decOption decRat (encOption encRat o ++ rest) = some (o, rest) :=
    decOption_encOption _ _ decRat_encRat
  have hv : ∀ (o : Option ViewMode) (rest : Bytes),
      decOption decViewMode (encOption encViewMode o ++ rest) = some (o, rest) :=
    decOption_encOption _ _ decViewMode_encViewMode
  have ho : ∀ (o : Option Orientation) (rest : Bytes),
      decOption decOrientation (encOption encOrientation o ++ rest) = some (o, rest) :=
    decOption_encOption _ _ decOrientation_encOrientation
  simp [printManifest, parseManifest, hs, hi, hr, hv, ho]

/-!
The zip archive. `zipSync` at source line 197 receives a JS object
literal, in which a later computed key overwrites an earlier equal key;
`zset` models that insertion. `unzipSync` yields an object whose
properties are looked up by name; `zfind` models that lookup.
-/

/-- An archive: named byte entries (keys unique when built by `zset`). -/
abbrev Zip := List (String × Bytes)

/-- Insert an entry, overwriting an existing entry of the same name
(JS object-literal semantics). -/
def zset : Zip → String → Bytes → Zip
  | [], k, v => [(k, v)]
  | (k0, v0) :: rest, k, v =>
    if k0 = k then (k0, v) :: rest else (k0, v0) :: zset rest k v

/-- Look up an entry by name (JS property access `files[name]`). -/
def zfind : Zip → String → Option Bytes
  | [], _ => none
  | (k0, v0) :: rest, k => if k0 = k then some v0 else zfind rest k

/-- JS property-key coercion: `files[manifest.paper]` with
`manifest.paper` undefined looks up the literal key `"undefined"`. -/
def jsKey : Option String → String
  | some s => s
  | none => "undefined"

/-- A loaded file: name plus contents (the `File` objects held in
`pdfFile` / `appFile`). -/
structure FileData where
  name : String
  data : Bytes
deriving DecidableEq

/-- A URL held in `pdfUrl` / `appUrl`: either an object URL backed by a
blob (modelled by the referenced bytes, which a live handle can always
serve back) or a remote URL string. -/
inductive UrlRef
  | blob (data : Bytes)
  | remote (url : String)
deriving DecidableEq

/-- The component's state: every `useState` / `useLocalStorage` cell of
`PaperHtmlViewer` (source lines 33-53). -/
structure AppState where
  pdfUrl : Option UrlRef
  pdfFile : Option FileData
  appUrl : Option UrlRef
  appSrcDoc : Option String
  appFile : Option FileData
  view : ViewMode
  orientation : Orientation
  splitPct : ℚ
  swap : Bool
  theme : Theme
  isFullscreen : Bool
  pdfZoom : ℚ
  isDragging : Bool
  showToolbar : Bool
  showKeyboardShortcuts : Bool
deriving DecidableEq

/-- The initial state: the defaults passed to `useState` /
`useLocalStorage` at source lines 33-53 (storage empty). -/
def initialState : AppState where
  pdfUrl := none
  pdfFile := none
  appUrl := none
  appSrcDoc := none
  appFile := none
  view := .split
  orientation := .horizontal
  splitPct := 50
  swap := false
  theme := .light
  isFullscreen := false
  pdfZoom := 100
  isDragging := false
  showToolbar := true
  showKeyboardShortcuts := false

/-- Startup read of one `useLocalStorage` key (source lines 12-20):
`none` models no stored raw value (or a storage read throw), `some none`
models a raw value on which `JSON.parse` throws, `some (some v)` models
a raw value parsing to `v`; the two failure shapes fall back to the
default. -/
def localStorageInit {α : Type} (parsed : Option (Option α)) (initial : α) : α :=
  match parsed with
  | none => initial
  | some none => initial
  | some (some v) => v

/-- Startup value of the `pcv.splitPct` key (source line 46, default 50). -/
def initialSplitPct (stored : Option (Option ℚ)) : ℚ :=
  localStorageInit stored 50

/-- Model of `strToU8` (UTF-8 encoding of a string, used for
`appSrcDoc` and the manifest entry): the string's code points. -/
def strToU8 (s : String) : Bytes := s.toList.map Char.toNat

/-- Model of `pdfName.replace(/\.pdf$/i, "")` at source line 188: strip
one trailing `.pdf` suffix, case-insensitively. -/
def stripPdfExt (s : String) : String :=
  let cs := s.toList
  if (cs.map Char.toLower).reverse.take 4 = ['f', 'd', 'p', '.'] then
    String.mk (cs.take (cs.length - 4))
  else s

/-- Model of `name.split("/").pop() || fallback` at source lines
138/150: the substring after the last slash, or the fallback when that
is empty. -/
def basenameOr (path fallback : String) : String :=
  let last := String.mk ((path.toList.reverse.takeWhile fun c => c ≠ '/').reverse)
  if last = "" then fallback else last

/-!
Archive codec: `onSaveBundle` (source lines 157-210) and
`onOpenBundle` (source lines 113-155).
-/

/-- The three-entry object literal passed to `zipSync` at source lines
197-201: `manifest.json`, then the paper entry, then the app entry,
later keys overwriting earlier equal keys. -/
def mkBundleZip (manifestBytes : Bytes) (pdfName : String) (pdfBytes : Bytes)
    (appName : String) (appBytes : Bytes) : Zip :=
  zset (zset (zset [] "manifest.json" manifestBytes) pdfName pdfBytes) appName appBytes

/-- The encode step of the codec (source lines 187-201): build the
manifest record from the given fields and zip the three entries. -/
def encodeBundle (view : ViewMode) (split : ℚ) (orient : Orientation)
    (pdfBytes : Bytes) (pdfName : String) (appBytes : Bytes) (appName : String) : Zip :=
  let manifest : ManifestJson :=
    { title := some (stripPdfExt pdfName)
      paper := some pdfName
      app := some appName
      layout := some view
      split := some split
      orientation := some orient
      version := some 1 }
  mkBundleZip (printManifest manifest) pdfName pdfBytes appName appBytes

/-- Outcome of `onSaveBundle`. -/
inductive SaveResult
  | errNoDocs
  | errCapture
  | ok (archive : Zip) (filename : String)
deriving DecidableEq

/-- The app-payload resolution chain of `onSaveBundle` (source lines
163-177): `appFile` bytes with its name, else `strToU8(appSrcDoc)`,
else the bytes behind a blob `appUrl` (a live handle serves its bytes);
a remote `appUrl` is not fetched, leaving `appBytes` null. -/
def captureAppBytes (s : AppState) : Option (Bytes × String) :=
  match s.appFile with
  | some af => some (af.data, if af.name = "" then "calculator.html" else af.name)
  | none =>
    match s.appSrcDoc with
    | some doc => some (strToU8 doc, "calculator.html")
    | none =>
      match s.appUrl with
      | some (.blob d) => some (d, "calculator.html")
      | _ => none

/-- The save handler (source lines 157-210). Checks the precondition
(`!pdfFile || (!appFile && !appSrcDoc && !appUrl)`), resolves the app
payload through `captureAppBytes`, then zips. -/
def onSaveBundle (s : AppState) : SaveResult :=
  match s.pdfFile with
  | none => .errNoDocs
  | some pf =>
    if s.appFile.isNone ∧ s.appSrcDoc.isNone ∧ s.appUrl.isNone then .errNoDocs
    else
      match captureAppBytes s with
      | none => .errCapture
      | some (appBytes, appName) =>
        let pdfName := if pf.name = "" then "paper.pdf" else pf.name
        let title := stripPdfExt pdfName
        .ok (encodeBundle s.view s.splitPct s.orientation pf.data pdfName appBytes appName)
          ((if title = "" then "bundle" else title) ++ ".texhtml")

/-- Result of the pure decode path of `onOpenBundle`. The constructor
`invalidManifest` is the spec's taxonomy entry for field validation;
the source performs no such validation, so no code path below produces
it. -/
inductive DecodeResult
  | missingManifest
  | badManifestJson
  | invalidManifest
  | missingEntry (name : String)
  | ok (manifest : ManifestJson) (paperBytes : Bytes) (appBytes : Bytes)
deriving DecidableEq

/-- The decode path of `onOpenBundle` (source lines 113-150): require
`manifest.json`, parse it, then look up the paper and app entries under
the manifest's (possibly undefined) names. -/
def decodeBundle (files : Zip) : DecodeResult :=
  match zfind files "manifest.json" with
  | none => .missingManifest
  | some manifestRaw =>
    match parseManifest manifestRaw with
    | none => .badManifestJson
    | some manifest =>
      match zfind files (jsKey manifest.paper) with
      | none => .missingEntry (jsKey manifest.paper)
      | some pdfEntry =>
        match zfind files (jsKey manifest.app) with
        | none => .missingEntry (jsKey manifest.app)
        | some appEntry => .ok manifest pdfEntry appEntry

/-- Outcome of the stateful `onOpenBundle`. -/
inductive OpenOutcome
  | success
  | errMissingManifest
  | errBadManifestJson
  | errMissingEntry (name : String)
deriving DecidableEq

/-- Clamp applied when a bundle's `split` field is adopted
(`Math.min(85, Math.max(15, manifest.split))`, source line 153). -/
def openSplitClamp (q : ℚ) : ℚ := min 85 (max 15 q)

/-- The open handler (source lines 113-155), including its exact
mutation order: the PDF handles are replaced before the app entry is
looked up, so a missing app entry leaves the PDF handles already
mutated. -/
def onOpenBundle (s : AppState) (files : Zip) : AppState × OpenOutcome :=
  match zfind files "manifest.json" with
  | none => (s, .errMissingManifest)
  | some manifestRaw =>
    match parseManifest manifestRaw with
    | none => (s, .errBadManifestJson)
    | some manifest =>
      match zfind files (jsKey manifest.paper) with
      | none => (s, .errMissingEntry (jsKey manifest.paper))
      | some pdfEntry =>
        let s1 := { s with
          pdfUrl := some (.blob pdfEntry)
          pdfFile := some ⟨basenameOr (jsKey manifest.paper) "paper.pdf", pdfEntry⟩ }
        match zfind files (jsKey manifest.app) with
        | none => (s1, .errMissingEntry (jsKey manifest.app))
        | some appEntry =>
          let s2 := { s1 with
            appUrl := some (.blob appEntry)
            appSrcDoc := none
            appFile := some ⟨basenameOr (jsKey manifest.app) "calculator.html", appEntry⟩ }
          let s3 := match manifest.layout with
            | some v => { s2 with view := v }
            | none => s2
          let s4 := match manifest.split with
            | some q => { s3 with splitPct := openSplitClamp q }
            | none => s3
          let s5 := match manifest.orientation with
            | some o => { s4 with orientation := o }
            | none => s4
          (s5, .success)

/-!
Layout-state setters and the remaining handlers.
-/

/-- The raw `setSplitPct` state setter (source line 46): a plain
`useLocalStorage` setter, storing its argument as given. -/
def setSplitPct (s : AppState) (p : ℚ) : AppState := { s with splitPct := p }

/-- A container's bounding client rect. -/
structure Rect where
  left : ℚ
  top : ℚ
  width : ℚ
  height : ℚ
deriving DecidableEq

/-- The split value computed by `handleMouseMove` (source lines
224-235): pointer offset along the split axis as a percentage, clamped
to [15, 85], then rounded. -/
def dragSplitValue (orient : Orientation) (clientX clientY : ℚ) (rect : Rect) : ℚ :=
  let newSplit :=
    if orient = .horizontal then (clientX - rect.left) / rect.width * 100
    else (clientY - rect.top) / rect.height * 100
  ((round (max 15 (min 85 newSplit)) : ℤ) : ℚ)

/-- The pointer-move handler (source lines 218-237): a no-op unless
dragging, otherwise writes `dragSplitValue` through `setSplitPct`. -/
def handleMouseMove (s : AppState) (clientX clientY : ℚ) (rect : Rect) : AppState :=
  if s.isDragging then
    setSplitPct s (dragSplitValue s.orientation clientX clientY rect)
  else s

/-- Zoom-out button (source line 468): `Math.max(25, pdfZoom - 25)`. -/
def zoomOut (z : ℚ) : ℚ := max 25 (z - 25)

/-- Zoom-in button (source line 477): `Math.min(200, pdfZoom + 25)`. -/
def zoomIn (z : ℚ) : ℚ := min 200 (z + 25)

/-- One press of a zoom button. -/
inductive ZoomStep
  | zin
  | zout
deriving DecidableEq

/-- Apply one zoom press. -/
def applyZoomStep (z : ℚ) : ZoomStep → ℚ
  | .zin => zoomIn z
  | .zout => zoomOut z

/-- Apply a sequence of zoom presses. -/
def applyZoomSeq (z : ℚ) : List ZoomStep → ℚ
  | [] => z
  | d :: ds => applyZoomSeq (applyZoomStep z d) ds

/-- The clear-PDF handler (source lines 70-77): revokes the object URL
(no state), then nulls `pdfUrl` and `pdfFile` and resets `pdfZoom` to
100. -/
def onClearPdf (s : AppState) : AppState :=
  { s with pdfUrl := none, pdfFile := none, pdfZoom := 100 }

/-- The clear-HTML handler (source lines 79-86). -/
def onClearHtml (s : AppState) : AppState :=
  { s with appUrl := none, appSrcDoc := none, appFile := none }

/-- The pick-PDF handler (source lines 63-68). -/
def onPickPdf (s : AppState) (f : FileData) : AppState :=
  { s with pdfUrl := some (.blob f.data), pdfFile := some f }

/-- The pick-HTML handler (source lines 88-97). -/
def onPickHtml (s : AppState) (f : FileData) : AppState :=
  { s with appFile := some f, appUrl := some (.blob f.data), appSrcDoc := none }

/-!
Keyboard shortcut dispatch (source lines 260-304).
-/

/-- The fields of a `KeyboardEvent` that `handleKeyDown` reads or that
the claims mention. -/
structure KeyEvent where
  key : String
  ctrlKey : Bool
  metaKey : Bool
  shiftKey : Bool
  altKey : Bool
deriving DecidableEq

/-- The state-store call a key event is mapped to. -/
inductive KeyAction
  | dismissHelp
  | viewSplit
  | viewPaper
  | viewApp
  | themeToggle
  | fullscreenToggle
  | swapToggle
  | toolbarToggle
deriving DecidableEq

/-- The key-down dispatcher (source lines 261-304). Returns the action
fired (at most one, by the early returns and the switch) and whether
`preventDefault` was called. The Escape branch is the first check and
does not inspect modifiers. -/
def handleKeyDown (e : KeyEvent) : Option KeyAction × Bool :=
  if e.key = "Escape" then (some .dismissHelp, true)
  else
    let ctrlAction : Option KeyAction :=
      if e.ctrlKey || e.metaKey then
        if e.key = "1" then some .viewSplit
        else if e.key = "2" then some .viewPaper
        else if e.key = "3" then some .viewApp
        else if e.key = "d" then some .themeToggle
        else if e.key = "f" then some .fullscreenToggle
        else if e.key = "s" then some .swapToggle
        else if e.key = "h" then some .toolbarToggle
        else none
      else none
    match ctrlAction with
    | some a => (some a, true)
    | none => if e.key = "F11" then (some .fullscreenToggle, true) else (none, false)

/-- Apply a dispatched key action to the state. The fullscreen toggle
only requests host fullscreen; the state's `isFullscreen` is updated by
the separate `fullscreenchange` listener (source lines 311-330),
modelled as the `fullscreenChange` action below. -/
def applyKeyAction (s : AppState) : KeyAction → AppState
  | .dismissHelp => { s with showKeyboardShortcuts := false }
  | .viewSplit => { s with view := .split }
  | .viewPaper => { s with view := .paper }
  | .viewApp => { s with view := .app }
  | .themeToggle => { s with theme := if s.theme = .light then .dark else .light }
  | .fullscreenToggle => s
  | .swapToggle => { s with swap := !s.swap }
  | .toolbarToggle => { s with showToolbar := !s.showToolbar }

/-!
The transition system: every state-mutating event handler of the
component, used to state reachability invariants.
-/

/-- One user-visible event. The slider action carries the range
element's `min={15} max={85}` constraint, which the browser enforces on
the value the change event delivers (source lines 489-494). -/
inductive Action
  | pickPdf (f : FileData)
  | clearPdf
  | pickHtml (f : FileData)
  | clearHtml
  | openBundle (z : Zip)
  | saveBundle
  | dividerDown
  | mouseMove (clientX clientY : ℚ) (rect : Rect)
  | mouseUp
  | sliderSplit (n : ℤ) (hlo : 15 ≤ n) (hhi : n ≤ 85)
  | zoomStep (d : ZoomStep)
  | viewSet (v : ViewMode)
  | orientationSet (o : Orientation)
  | keyDown (e : KeyEvent)
  | swapToggle
  | themeToggle
  | toolbarShow (b : Bool)
  | helpShow (b : Bool)
  | fullscreenChange (b : Bool)

/-- Apply one event to the state, mirroring the corresponding handler
in the source. `saveBundle` reads state but never mutates it. -/
def applyAction (s : AppState) : Action → AppState
  | .pickPdf f => onPickPdf s f
  | .clearPdf => onClearPdf s
  | .pickHtml f => onPickHtml s f
  | .clearHtml => onClearHtml s
  | .openBundle z => (onOpenBundle s z).1
  | .saveBundle => s
  | .dividerDown => { s with isDragging := true }
  | .mouseMove cx cy r => handleMouseMove s cx cy r
  | .mouseUp => { s with isDragging := false }
  | .sliderSplit n _ _ => setSplitPct s (n : ℚ)
  | .zoomStep d => { s with pdfZoom := applyZoomStep s.pdfZoom d }
  | .viewSet v => { s with view := v }
  | .orientationSet o => { s with orientation := o }
  | .keyDown e =>
    match (handleKeyDown e).1 with
    | some a => applyKeyAction s a
    | none => s
  | .swapToggle => { s with swap := !s.swap }
  | .themeToggle => { s with theme := if s.theme = .light then .dark else .light }
  | .toolbarShow b => { s with showToolbar := b }
  | .helpShow b => { s with showKeyboardShortcuts := b }
  | .fullscreenChange b => { s with isFullscreen := b }

/-!
Helper lemmas about the archive map.
-/

theorem zfind_zset (z : Zip) (k k' : String) (v : Bytes) :
    zfind (zset z k v) k' = if k = k' then some v else zfind z k' := by
  induction z with
  | nil => rfl
  | cons kv rest ih =>
    obtain ⟨k0, v0⟩ := kv
    by_cases h1 : k0 = k <;> by_cases h2 : k0 = k' <;> by_cases h3 : k = k' <;>
      simp_all [zset, zfind]

theorem mkBundleZip_of_ne (mb pb ab : Bytes) (pn an : String)
    (h1 : pn ≠ "manifest.json") (h2 : an ≠ "manifest.json") (h3 : an ≠ pn) :
    mkBundleZip mb pn pb an ab = [("manifest.json", mb), (pn, pb), (an, ab)] := by
  simp [mkBundleZip, zset, Ne.symm h1, Ne.symm h2, Ne.symm h3]

theorem mkBundleZip_total (mb pb ab : Bytes) (pn an : String) :
    (zfind (mkBundleZip mb pn pb an ab) "manifest.json").isSome
    ∧ (zfind (mkBundleZip mb pn pb an ab) pn).isSome
    ∧ (zfind (mkBundleZip mb pn pb an ab) an).isSome := by
  unfold mkBundleZip
  simp only [zfind_zset, zset]
  refine ⟨?_, ?_, ?_⟩ <;> split_ifs <;> simp_all [zfind]

theorem encodeBundle_eq (v : ViewMode) (sp : ℚ) (o : Orientation)
    (pb : Bytes) (pn : String) (ab : Bytes) (an : String) :
    encodeBundle v sp o pb pn ab an =
      mkBundleZip (printManifest
        { title := some (stripPdfExt pn), paper := some pn, app := some an,
          layout := some v, split := some sp, orientation := some o,
          version := some 1 }) pn pb an ab := rfl

/-- C1 (amended): round-trip through the archive codec holds whenever
the three entry names are pairwise distinct (the paper name and app
name differ from each other and from `manifest.json`): decoding the
archive produced by encode yields a manifest with exactly the encoded
layout, split, and orientation, the original paper and app bytes
unchanged, and applying it stores the clamped split. Without the
distinctness conditions a later zip entry overwrites an earlier equal
name, and the round-trip fails (see the counterexample). -/
theorem bundle_roundtrip (v : ViewMode) (sp : ℚ) (o : Orientation)
    (pb : Bytes) (pn : String) (ab : Bytes) (an : String) (s0 : AppState)
    (h1 : pn ≠ "manifest.json") (h2 : an ≠ "manifest.json") (h3 : an ≠ pn) :
    decodeBundle (encodeBundle v sp o pb pn ab an) =
      .ok { title := some (stripPdfExt pn), paper := some pn, app := some an,
            layout := some v, split := some sp, orientation := some o,
            version := some 1 } pb ab
    ∧ (onOpenBundle s0 (encodeBundle v sp o pb pn ab an)).1.view = v
    ∧ (onOpenBundle s0 (encodeBundle v sp o pb pn ab an)).1.splitPct = openSplitClamp sp
    ∧ (onOpenBundle s0 (encodeBundle v sp o pb pn ab an)).1.orientation = o
    ∧ (onOpenBundle s0 (encodeBundle v sp o pb pn ab an)).1.pdfFile
        = some ⟨basenameOr pn "paper.pdf", pb⟩
    ∧ (onOpenBundle s0 (encodeBundle v sp o pb pn ab an)).1.appFile
        = some ⟨basenameOr an "calculator.html", ab⟩
    ∧ (onOpenBundle s0 (encodeBundle v sp o pb pn ab an)).2 = .success := by
  rw [encodeBundle_eq, mkBundleZip_of_ne _ _ _ _ _ h1 h2 h3]
  refine ⟨?_, ?_⟩
  · simp [decodeBundle, zfind, parseManifest_printManifest, jsKey,
      Ne.symm h1, Ne.symm h2, Ne.symm h3]
  · simp [onOpenBundle, zfind, parseManifest_printManifest, jsKey,
      Ne.symm h1, Ne.symm h2, Ne.symm h3]

/-- C1 witness: the amended round-trip at a concrete bundle. -/
theorem bundle_roundtrip_witness :
    decodeBundle (encodeBundle .split 60 .vertical [1, 2] "p.pdf" [3] "calc.html") =
      .ok { title := some (stripPdfExt "p.pdf"), paper := some "p.pdf",
            app := some "calc.html", layout := some .split, split := some 60,
            orientation := some .vertical, version := some 1 } [1, 2] [3]
    ∧ (onOpenBundle initialState
        (encodeBundle .split 60 .vertical [1, 2] "p.pdf" [3] "calc.html")).1.view = .split
    ∧ (onOpenBundle initialState
        (encodeBundle .split 60 .vertical [1, 2] "p.pdf" [3] "calc.html")).1.splitPct
        = openSplitClamp 60
    ∧ (onOpenBundle initialState
        (encodeBundle .split 60 .vertical [1, 2] "p.pdf" [3] "calc.html")).1.orientation
        = .vertical
    ∧ (onOpenBundle initialState
        (encodeBundle .split 60 .vertical [1, 2] "p.pdf" [3] "calc.html")).1.pdfFile
        = some ⟨basenameOr "p.pdf" "paper.pdf", [1, 2]⟩
    ∧ (onOpenBundle initialState
        (encodeBundle .split 60 .vertical [1, 2] "p.pdf" [3] "calc.html")).1.appFile
        = some ⟨basenameOr "calc.html" "calculator.html", [3]⟩
    ∧ (onOpenBundle initialState
        (encodeBundle .split 60 .vertical [1, 2] "p.pdf" [3] "calc.html")).2 = .success :=
  bundle_roundtrip .split 60 .vertical [1, 2] "p.pdf" [3] "calc.html" initialState
    (by decide) (by decide) (by decide)

/-- C1 counterexample: taking the paper name and app name both `"a"` —
inputs `encode` accepts without complaint — the app entry overwrites
the paper entry in the zip object literal, so decode returns the app
bytes `[1]` for the paper instead of the original paper bytes `[0]`:
the round-trip claim fails as stated. -/
theorem bundle_roundtrip_cex :
    decodeBundle (encodeBundle .split 50 .horizontal [0] "a" [1] "a") =
      .ok { title := some (stripPdfExt "a"), paper := some "a", app := some "a",
            layout := some .split, split := some 50, orientation := some .horizontal,
            version := some 1 } [1] [1]
    ∧ ([1] : Bytes) ≠ [0] := by
  constructor
  · simp [encodeBundle_eq, mkBundleZip, zset, zfind, decodeBundle, jsKey,
      parseManifest_printManifest]
  · simp

/-- C2 (amended): when opening an archive fails with a missing entry,
the layout state (view mode, orientation, split percent) and the
markup-document handles are left untouched; and when the missing entry
is the paper entry the whole state is untouched. However, when only
the app entry is missing, the PDF handles have already been replaced
(the source mutates them before looking up the app entry), so the
original claim's untouched-both-handles guarantee fails (see the
counterexample). -/
theorem open_missing_entry_state (s : AppState) (z : Zip) :
    (∀ name, (onOpenBundle s z).2 = .errMissingEntry name →
      ((onOpenBundle s z).1.view = s.view
       ∧ (onOpenBundle s z).1.orientation = s.orientation
       ∧ (onOpenBundle s z).1.splitPct = s.splitPct
       ∧ (onOpenBundle s z).1.appUrl = s.appUrl
       ∧ (onOpenBundle s z).1.appSrcDoc = s.appSrcDoc
       ∧ (onOpenBundle s z).1.appFile = s.appFile))
    ∧ (∀ raw m, zfind z "manifest.json" = some raw → parseManifest raw = some m →
        zfind z (jsKey m.paper) = none →
        onOpenBundle s z = (s, .errMissingEntry (jsKey m.paper))) := by
  constructor
  · intro name h
    unfold onOpenBundle at h ⊢
    cases hman : zfind z "manifest.json" with
    | none => simp [hman] at h
    | some raw =>
      cases hp : parseManifest raw with
      | none => simp [hman, hp] at h
      | some m =>
        cases hpe : zfind z (jsKey m.paper) with
        | none => simp [hman, hp, hpe]
        | some pdfEntry =>
          cases hae : zfind z (jsKey m.app) with
          | none => simp [hman, hp, hpe, hae]
          | some appEntry =>
            exfalso
            revert h
            cases hl : m.layout <;> cases hsp : m.split <;> cases hor : m.orientation <;>
              simp [hman, hp, hpe, hae, hl, hsp, hor]
  · intro raw m hraw hm hpe
    unfold onOpenBundle
    simp [hraw, hm, hpe]

/-- C2 witness: opening a bundle whose app entry is absent, from the
initial state, leaves the layout state and app handles unchanged. -/
theorem open_missing_entry_state_witness :
    (onOpenBundle initialState
        [("manifest.json", printManifest { paper := some "p", app := some "a" }),
         ("p", [7])]).1.view = initialState.view
    ∧ (onOpenBundle initialState
        [("manifest.json", printManifest { paper := some "p", app := some "a" }),
         ("p", [7])]).1.orientation = initialState.orientation
    ∧ (onOpenBundle initialState
        [("manifest.json", printManifest { paper := some "p", app := some "a" }),
         ("p", [7])]).1.splitPct = initialState.splitPct
    ∧ (onOpenBundle initialState
        [("manifest.json", printManifest { paper := some "p", app := some "a" }),
         ("p", [7])]).1.appUrl = initialState.appUrl
    ∧ (onOpenBundle initialState
        [("manifest.json", printManifest { paper := some "p", app := some "a" }),
         ("p", [7])]).1.appSrcDoc = initialState.appSrcDoc
    ∧ (onOpenBundle initialState
        [("manifest.json", printManifest { paper := some "p", app := some "a" }),
         ("p", [7])]).1.appFile = initialState.appFile :=
  (open_missing_entry_state initialState
    [("manifest.json", printManifest { paper := some "p", app := some "a" }),
     ("p", [7])]).1 "a" rfl

/-- C2 counterexample: an archive whose manifest names paper `"p"`
(present) and app `"a"` (absent). Opening reports the missing entry,
but the PDF file handle is replaced before the app lookup: it goes from
`none` to a loaded file, so the state is not left exactly as it was. -/
theorem open_missing_entry_cex :
    (onOpenBundle initialState
        [("manifest.json", printManifest { paper := some "p", app := some "a" }),
         ("p", [7])]).2 = .errMissingEntry "a"
    ∧ (onOpenBundle initialState
        [("manifest.json", printManifest { paper := some "p", app := some "a" }),
         ("p", [7])]).1.pdfFile = some ⟨"p", [7]⟩
    ∧ initialState.pdfFile = none
    ∧ some (⟨"p", [7]⟩ : FileData) ≠ none := by
  refine ⟨rfl, rfl, rfl, by simp⟩

theorem round_mono_rat {x y : ℚ} (h : x ≤ y) : round x ≤ round y := by
  rw [round_eq, round_eq]
  exact Int.floor_mono (by linarith)

theorem roundClamp_mem (x : ℚ) :
    15 ≤ ((round (max 15 (min 85 x)) : ℤ) : ℚ)
    ∧ ((round (max 15 (min 85 x)) : ℤ) : ℚ) ≤ 85 := by
  have h1 : (15 : ℚ) ≤ max 15 (min 85 x) := le_max_left _ _
  have h2 : max 15 (min 85 x) ≤ 85 := max_le (by norm_num) (min_le_left _ _)
  have r1 : (15 : ℤ) ≤ round (max 15 (min 85 x)) := by
    have := round_mono_rat h1
    rwa [round_ofNat] at this
  have r2 : round (max 15 (min 85 x)) ≤ (85 : ℤ) := by
    have := round_mono_rat h2
    rwa [round_ofNat] at this
  exact ⟨by exact_mod_cast r1, by exact_mod_cast r2⟩

theorem dragSplitValue_mem (o : Orientation) (cx cy : ℚ) (r : Rect) :
    15 ≤ dragSplitValue o cx cy r ∧ dragSplitValue o cx cy r ≤ 85 := by
  unfold dragSplitValue
  exact roundClamp_mem _

theorem openSplitClamp_mem (q : ℚ) :
    15 ≤ openSplitClamp q ∧ openSplitClamp q ≤ 85 := by
  unfold openSplitClamp
  exact ⟨le_min (by norm_num) (le_max_left _ _), min_le_left _ _⟩

/-- C4 (amended): the split-percent setter itself performs no rounding
or clamping — it stores its argument exactly as given; the rounding and
clamping live in its callers: the drag handler writes
`round(clamp(value))`, always inside [15, 85], and the bundle opener
writes `min(85, max(15, split))`, also always inside [15, 85]. -/
theorem setSplitPct_raw (s : AppState) (p : ℚ) :
    (setSplitPct s p).splitPct = p
    ∧ (∀ (o : Orientation) (cx cy : ℚ) (r : Rect),
        15 ≤ dragSplitValue o cx cy r ∧ dragSplitValue o cx cy r ≤ 85)
    ∧ (∀ q : ℚ, 15 ≤ openSplitClamp q ∧ openSplitClamp q ≤ 85) :=
  ⟨rfl, dragSplitValue_mem, openSplitClamp_mem⟩

/-- C4 counterexample: calling the setter with 200 stores 200, while
the claim's value `clamp(round(200), 15, 85)` is 85; the setter does
not clamp or round for itself. -/
theorem setSplitPct_raw_cex :
    (setSplitPct initialState 200).splitPct = 200
    ∧ ((min 85 (max 15 (round (200 : ℚ))) : ℤ) : ℚ) = 85
    ∧ (200 : ℚ) ≠ 85 := by
  refine ⟨rfl, ?_, by norm_num⟩
  rw [round_ofNat]
  norm_num

/-- The split value stored by opening a bundle is either untouched or a
clamped manifest value. -/
theorem onOpenBundle_splitPct (s : AppState) (z : Zip) :
    (onOpenBundle s z).1.splitPct = s.splitPct
    ∨ ∃ q, (onOpenBundle s z).1.splitPct = openSplitClamp q := by
  unfold onOpenBundle
  cases hman : zfind z "manifest.json" with
  | none => left; rfl
  | some raw =>
    cases hp : parseManifest raw with
    | none => left; simp [hp]
    | some m =>
      cases hpe : zfind z (jsKey m.paper) with
      | none => left; simp [hp, hpe]
      | some pdfEntry =>
        cases hae : zfind z (jsKey m.app) with
        | none => left; simp [hp, hpe, hae]
        | some appEntry =>
          cases hsp : m.split with
          | none =>
            left
            cases hl : m.layout <;> cases hor : m.orientation <;>
              simp [hp, hpe, hae, hl, hsp, hor]
          | some q =>
            right
            refine ⟨q, ?_⟩
            cases hl : m.layout <;> cases hor : m.orientation <;>
              simp [hp, hpe, hae, hl, hsp, hor]

/-- C5 (amended): the [15, 85] split invariant is preserved by every
transition of the component from any state satisfying it, and the
startup read falls back to the in-range default 50 when the stored
value is absent or unparseable. It is not restored by clamping at
startup, however: a parseable stored number is adopted as-is, so a
foreign out-of-range value violates the invariant (see the
counterexample). -/
theorem splitPct_invariant :
    (∀ (s : AppState) (a : Action), 15 ≤ s.splitPct → s.splitPct ≤ 85 →
      15 ≤ (applyAction s a).splitPct ∧ (applyAction s a).splitPct ≤ 85)
    ∧ initialSplitPct none = 50
    ∧ initialSplitPct (some none) = 50 := by
  refine ⟨?_, rfl, rfl⟩
  intro s a h1 h2
  cases a with
  | pickPdf f => exact ⟨h1, h2⟩
  | clearPdf => exact ⟨h1, h2⟩
  | pickHtml f => exact ⟨h1, h2⟩
  | clearHtml => exact ⟨h1, h2⟩
  | openBundle z =>
    rcases onOpenBundle_splitPct s z with h | ⟨q, h⟩
    · rw [applyAction, h]; exact ⟨h1, h2⟩
    · rw [applyAction, h]; exact openSplitClamp_mem q
  | saveBundle => exact ⟨h1, h2⟩
  | dividerDown => exact ⟨h1, h2⟩
  | mouseMove cx cy r =>
    show 15 ≤ (handleMouseMove s cx cy r).splitPct ∧ (handleMouseMove s cx cy r).splitPct ≤ 85
    unfold handleMouseMove
    by_cases hd : s.isDragging
    · simp only [hd, if_true]
      exact dragSplitValue_mem _ _ _ _
    · simp only [hd, if_false]
      exact ⟨h1, h2⟩
  | mouseUp => exact ⟨h1, h2⟩
  | sliderSplit n hlo hhi =>
    constructor
    · show (15 : ℚ) ≤ (n : ℚ)
      exact_mod_cast hlo
    · show (n : ℚ) ≤ (85 : ℚ)
      exact_mod_cast hhi
  | zoomStep d => exact ⟨h1, h2⟩
  | viewSet v => exact ⟨h1, h2⟩
  | orientationSet o => exact ⟨h1, h2⟩
  | keyDown e =>
    show (15 : ℚ) ≤ (match (handleKeyDown e).1 with
        | some a => applyKeyAction s a
        | none => s).splitPct
      ∧ (match (handleKeyDown e).1 with
        | some a => applyKeyAction s a
        | none => s).splitPct ≤ (85 : ℚ)
    cases (handleKeyDown e).1 with
    | none => exact ⟨h1, h2⟩
    | some act => cases act <;> exact ⟨h1, h2⟩
  | swapToggle => exact ⟨h1, h2⟩
  | themeToggle => exact ⟨h1, h2⟩
  | toolbarShow b => exact ⟨h1, h2⟩
  | helpShow b => exact ⟨h1, h2⟩
  | fullscreenChange b => exact ⟨h1, h2⟩

/-- C5 witness: the invariant-preservation part applied at the initial
state (split 50) and a zoom action. -/
theorem splitPct_invariant_witness :
    15 ≤ (applyAction initialState (Action.zoomStep .zin)).splitPct
    ∧ (applyAction initialState (Action.zoomStep .zin)).splitPct ≤ 85 :=
  splitPct_invariant.1 initialState (Action.zoomStep .zin)
    (by norm_num [initialState]) (by norm_num [initialState])

/-- C5 counterexample: the startup read of the split key adopts a
stored value that parses as the number 99 without clamping, producing a
split percent outside [15, 85] — the invariant does not hold in the
startup state for every stored value. -/
theorem splitPct_invariant_cex :
    initialSplitPct (some (some 99)) = 99 ∧ ¬ ((99 : ℚ) ≤ 85) :=
  ⟨rfl, by norm_num⟩

/-- C6 (amended): starting from any zoom value inside [25, 200] — which
includes the default 100 and every value the zoom buttons themselves
produce — any finite sequence of zoom-in / zoom-out presses keeps the
stored zoom inside [25, 200] (each intermediate value is the result of
a prefix of the sequence, so this covers all intermediate states). For
a starting value outside the range the claim fails: one step needs not
re-enter the range (see the counterexample). -/
theorem zoom_invariant (z0 : ℚ) (steps : List ZoomStep)
    (h1 : 25 ≤ z0) (h2 : z0 ≤ 200) :
    25 ≤ applyZoomSeq z0 steps ∧ applyZoomSeq z0 steps ≤ 200 := by
  induction steps generalizing z0 with
  | nil => exact ⟨h1, h2⟩
  | cons d ds ih =>
    show 25 ≤ applyZoomSeq (applyZoomStep z0 d) ds ∧ applyZoomSeq (applyZoomStep z0 d) ds ≤ 200
    apply ih
    · cases d with
      | zin => exact le_min (by norm_num) (by linarith)
      | zout => exact le_max_left _ _
    · cases d with
      | zin => exact min_le_left _ _
      | zout => exact max_le (by norm_num) (by linarith)

/-- C6 witness: zooming in once from the default 100 stays inside
[25, 200]. -/
theorem zoom_invariant_witness :
    25 ≤ applyZoomSeq 100 [ZoomStep.zin] ∧ applyZoomSeq 100 [ZoomStep.zin] ≤ 200 :=
  zoom_invariant 100 [ZoomStep.zin] (by norm_num) (by norm_num)

/-- C6 counterexample: from starting zoom 1000, one zoom-out press
produces `max 25 (1000 - 25) = 975`, a stored value outside [25, 200]:
the claim fails for arbitrary starting values. -/
theorem zoom_invariant_cex :
    applyZoomSeq 1000 [ZoomStep.zout] = 975 ∧ ¬ ((975 : ℚ) ≤ 200) := by
  constructor
  · show zoomOut 1000 = 975
    unfold zoomOut
    rw [max_eq_right (by norm_num)]
    norm_num
  · norm_num

theorem dragSplitValue_horizontal (cx cy : ℚ) (r : Rect) :
    dragSplitValue .horizontal cx cy r
      = ((round (max 15 (min 85 ((cx - r.left) / r.width * 100))) : ℤ) : ℚ) := by
  simp [dragSplitValue]

theorem dragSplitValue_vertical (cx cy : ℚ) (r : Rect) :
    dragSplitValue .vertical cx cy r
      = ((round (max 15 (min 85 ((cy - r.top) / r.height * 100))) : ℤ) : ℚ) := by
  simp [dragSplitValue]

/-- C7 (confirmed): while dragging, each pointer-move writes
`round(clamp(offset / extent * 100, 15, 85))` to the split percent,
with offset and extent taken along the split axis — x-offset over width
when horizontal, y-offset over height when vertical; the written value
always lies in [15, 85] whatever the axis, and on a horizontal
container of positive width it is monotone in the pointer position,
equal to 15 at 10 percent of the width and to 85 at 90 percent of the
width. -/
theorem drag_split_correct (s : AppState) (r : Rect) (hd : s.isDragging = true) :
    (∀ cx cy, s.orientation = .horizontal →
        (handleMouseMove s cx cy r).splitPct
          = ((round (max 15 (min 85 ((cx - r.left) / r.width * 100))) : ℤ) : ℚ))
    ∧ (∀ cx cy, s.orientation = .vertical →
        (handleMouseMove s cx cy r).splitPct
          = ((round (max 15 (min 85 ((cy - r.top) / r.height * 100))) : ℤ) : ℚ))
    ∧ (∀ cx cy, 15 ≤ (handleMouseMove s cx cy r).splitPct
        ∧ (handleMouseMove s cx cy r).splitPct ≤ 85)
    ∧ (s.orientation = .horizontal → 0 < r.width →
        ∀ cy cx1 cx2, cx1 ≤ cx2 →
          (handleMouseMove s cx1 cy r).splitPct ≤ (handleMouseMove s cx2 cy r).splitPct)
    ∧ (s.orientation = .horizontal → 0 < r.width → ∀ cy,
        (handleMouseMove s (r.left + r.width / 10) cy r).splitPct = 15
        ∧ (handleMouseMove s (r.left + 9 * r.width / 10) cy r).splitPct = 85) := by
  have hform : ∀ cx cy, (handleMouseMove s cx cy r).splitPct
      = dragSplitValue s.orientation cx cy r := by
    intro cx cy
    simp [handleMouseMove, hd, setSplitPct]
  refine ⟨?_, ?_, ?_, ?_, ?_⟩
  · intro cx cy ho
    rw [hform, ho, dragSplitValue_horizontal]
  · intro cx cy ho
    rw [hform, ho, dragSplitValue_vertical]
  · intro cx cy
    rw [hform]
    exact dragSplitValue_mem _ _ _ _
  · intro ho hw cy cx1 cx2 hle
    rw [hform, hform, ho, dragSplitValue_horizontal, dragSplitValue_horizontal]
    have hx : (cx1 - r.left) / r.width * 100 ≤ (cx2 - r.left) / r.width * 100 := by
      have : (cx1 - r.left) / r.width ≤ (cx2 - r.left) / r.width :=
        (div_le_div_iff_of_pos_right hw).mpr (by linarith)
      linarith
    exact_mod_cast round_mono_rat (max_le_max (le_refl _) (min_le_min (le_refl _) hx))
  · intro ho hw cy
    have hwne : r.width ≠ 0 := ne_of_gt hw
    constructor
    · rw [hform, ho, dragSplitValue_horizontal]
      have h10 : (r.left + r.width / 10 - r.left) / r.width * 100 = 10 := by
        field_simp
        ring
      rw [h10, min_eq_right (by norm_num : (10 : ℚ) ≤ 85),
        max_eq_left (by norm_num : (10 : ℚ) ≤ 15), round_ofNat]
      norm_num
    · rw [hform, ho, dragSplitValue_horizontal]
      have h90 : (r.left + 9 * r.width / 10 - r.left) / r.width * 100 = 90 := by
        field_simp
        ring
      rw [h90, min_eq_left (by norm_num : (85 : ℚ) ≤ 90),
        max_eq_right (by norm_num : (15 : ℚ) ≤ 85), round_ofNat]
      norm_num

/-- C7 witness: on a 100-wide, 50-high container, the horizontal drag
endpoints write 15 and 85, and on a vertical state a concrete move
writes the y-axis formula value. -/
theorem drag_split_correct_witness :
    (handleMouseMove { initialState with isDragging := true }
        (0 + 100 / 10) 0 ⟨0, 0, 100, 50⟩).splitPct = 15
    ∧ (handleMouseMove { initialState with isDragging := true }
        (0 + 9 * 100 / 10) 0 ⟨0, 0, 100, 50⟩).splitPct = 85
    ∧ (handleMouseMove { initialState with isDragging := true, orientation := .vertical }
        5 30 ⟨0, 0, 100, 50⟩).splitPct
      = ((round (max 15 (min 85 ((30 - (0 : ℚ)) / 50 * 100))) : ℤ) : ℚ) :=
  ⟨((drag_split_correct { initialState with isDragging := true }
      ⟨0, 0, 100, 50⟩ rfl).2.2.2.2 rfl (by norm_num) 0).1,
   ((drag_split_correct { initialState with isDragging := true }
      ⟨0, 0, 100, 50⟩ rfl).2.2.2.2 rfl (by norm_num) 0).2,
   (drag_split_correct { initialState with isDragging := true, orientation := .vertical }
      ⟨0, 0, 100, 50⟩ rfl).2.1 5 30 rfl⟩

/-- C8 (amended): the key dispatcher fires at most one action per event
(it returns at most one state-store call), and `preventDefault` is
called exactly when an action fires. The Escape binding, however, is
the dispatcher's first check and ignores modifiers entirely: every
Escape press — modified or not — dismisses the help overlay, so the
original claim's modifier restriction fails (see the
counterexample). -/
theorem keydown_dispatch (e : KeyEvent) :
    (handleKeyDown e).2 = (handleKeyDown e).1.isSome
    ∧ (e.key = "Escape" → handleKeyDown e = (some .dismissHelp, true)) := by
  constructor
  · unfold handleKeyDown
    split_ifs <;> simp
  · intro hk
    simp [handleKeyDown, hk]

/-- C8 witness: an unmodified Escape press fires the dismiss action and
suppresses the default. -/
theorem keydown_dispatch_witness :
    handleKeyDown ⟨"Escape", false, false, false, false⟩ = (some .dismissHelp, true) :=
  (keydown_dispatch ⟨"Escape", false, false, false, false⟩).2 rfl

/-- C8 counterexample: an Escape press with the Ctrl modifier held
still fires the dismiss action — the binding is not restricted to
unmodified Escape as the claim states. -/
theorem keydown_dispatch_cex :
    handleKeyDown ⟨"Escape", true, false, false, false⟩ = (some .dismissHelp, true)
    ∧ (some KeyAction.dismissHelp ≠ (none : Option KeyAction)) := by
  exact ⟨rfl, by simp⟩

/-- C9 (confirmed): saving without a loaded PDF file or without any app
payload reports the precondition error and produces no archive; a
remote-only app reference (whose bytes are never captured) reports the
content-capture error and produces no archive; and every archive that
is produced is a complete three-entry bundle: the manifest entry, the
paper entry, and the app entry are all present. -/
theorem save_preconditions (s : AppState) :
    ((s.pdfFile = none ∨ (s.appFile = none ∧ s.appSrcDoc = none ∧ s.appUrl = none)) →
      onSaveBundle s = .errNoDocs)
    ∧ (∀ u, s.pdfFile ≠ none → s.appFile = none → s.appSrcDoc = none →
        s.appUrl = some (.remote u) → onSaveBundle s = .errCapture)
    ∧ (∀ z f, onSaveBundle s = .ok z f →
        ∃ mb pn pb an ab, z = mkBundleZip mb pn pb an ab
          ∧ (zfind z "manifest.json").isSome
          ∧ (zfind z pn).isSome ∧ (zfind z an).isSome) := by
  refine ⟨?_, ?_, ?_⟩
  · rintro (hpf | ⟨haf, hasd, hau⟩)
    · unfold onSaveBundle
      rw [hpf]
    · unfold onSaveBundle
      cases hpf : s.pdfFile with
      | none => rfl
      | some pf => simp [haf, hasd, hau]
  · intro u hpf haf hasd hau
    cases hpf2 : s.pdfFile with
    | none => exact absurd hpf2 hpf
    | some pf =>
      unfold onSaveBundle
      have hcap : captureAppBytes s = none := by
        unfold captureAppBytes
        rw [haf, hasd, hau]
      simp [hpf2, haf, hasd, hau, hcap]
  · intro z f h
    unfold onSaveBundle at h
    cases hpf : s.pdfFile with
    | none => rw [hpf] at h; simp at h
    | some pf =>
      by_cases hcond : (s.appFile.isNone ∧ s.appSrcDoc.isNone ∧ s.appUrl.isNone)
      · simp [hpf, hcond] at h
      · cases hcap : captureAppBytes s with
        | none =>
          simp only [hpf, if_neg hcond, hcap] at h
          simp at h
        | some p =>
          obtain ⟨ab2, an2⟩ := p
          simp only [hpf, if_neg hcond, hcap] at h
          have hz : z = encodeBundle s.view s.splitPct s.orientation pf.data
              (if pf.name = "" then "paper.pdf" else pf.name) ab2 an2 := by
            cases h
            rfl
          refine ⟨_, if pf.name = "" then "paper.pdf" else pf.name, pf.data, an2, ab2,
            hz.trans (encodeBundle_eq _ _ _ _ _ _ _), ?_, ?_, ?_⟩ <;>
            rw [hz, encodeBundle_eq]
          · exact (mkBundleZip_total _ _ _ _ _).1
          · exact (mkBundleZip_total _ _ _ _ _).2.1
          · exact (mkBundleZip_total _ _ _ _ _).2.2

/-- C9 witness: from the empty initial state saving reports the
precondition error, and with a PDF loaded but only a remote app URL it
reports the capture error. -/
theorem save_preconditions_witness :
    onSaveBundle initialState = .errNoDocs
    ∧ onSaveBundle { initialState with
        pdfFile := some ⟨"p.pdf", [1]⟩, appUrl := some (.remote "u") } = .errCapture :=
  ⟨(save_preconditions initialState).1 (Or.inl rfl),
   (save_preconditions { initialState with
       pdfFile := some ⟨"p.pdf", [1]⟩, appUrl := some (.remote "u") }).2.1 "u"
     (by simp) rfl rfl rfl⟩

/-- C10 (confirmed): clearing the PDF nulls the PDF URL and file handle
and resets the zoom to 100, leaving every other layout field and all
markup-document handles unchanged. -/
theorem clearPdf_frame (s : AppState) :
    (onClearPdf s).pdfUrl = none ∧ (onClearPdf s).pdfFile = none
    ∧ (onClearPdf s).pdfZoom = 100
    ∧ (onClearPdf s).view = s.view ∧ (onClearPdf s).orientation = s.orientation
    ∧ (onClearPdf s).splitPct = s.splitPct ∧ (onClearPdf s).swap = s.swap
    ∧ (onClearPdf s).theme = s.theme ∧ (onClearPdf s).showToolbar = s.showToolbar
    ∧ (onClearPdf s).appUrl = s.appUrl ∧ (onClearPdf s).appSrcDoc = s.appSrcDoc
    ∧ (onClearPdf s).appFile = s.appFile ∧ (onClearPdf s).isFullscreen = s.isFullscreen
    ∧ (onClearPdf s).isDragging = s.isDragging
    ∧ (onClearPdf s).showKeyboardShortcuts = s.showKeyboardShortcuts :=
  ⟨rfl, rfl, rfl, rfl, rfl, rfl, rfl, rfl, rfl, rfl, rfl, rfl, rfl, rfl, rfl⟩

end PaperCalcViewer
